import Mathlib

/-!
Verification of the HashAB integrity-signature subsystem of the
tunesreloaded metadata editor (src/modules/state.js, hashAB section).

Buffers (JS `Uint8Array`) are modelled as `List Nat` of byte values.
The two external engines are parameters:
  * `sha1   : List Nat → List Nat`  — the digest primitive (`crypto.subtle.digest('SHA-1', ·)`),
  * `hashAB : List Nat → List Nat → List Nat` — the keyed transform of `calcHashAB.wasm`
    (20-byte digest and 8-byte device id to 57-byte signature).
The WASM readiness flag `wasmInstance` (set by the one-time async
initialisation) is modelled as a boolean parameter `wasmReady`; `calcHashAB`
throws when it is unset, which the embedding models as an explicit outcome.
-/

namespace TunesHashAB

set_option maxRecDepth 8000

/-- `buf.set(src, off)` on a `Uint8Array`: overwrite the bytes of `buf` at
positions `[off, off + src.length)` with `src`, leaving the rest unchanged
(in the source every such write is in bounds). -/
def setBytes (buf : List Nat) (off : Nat) (src : List Nat) : List Nat :=
  (List.range buf.length).map
    (fun i => if off ≤ i ∧ i < off + src.length then src.getD (i - off) 0 else buf.getD i 0)

/-- `buf.fill(0, start, stop)` on a `Uint8Array`: zero the bytes of `buf`
at positions `[start, stop)`. -/
def fillZero (buf : List Nat) (start stop : Nat) : List Nat :=
  (List.range buf.length).map
    (fun i => if start ≤ i ∧ i < stop then 0 else buf.getD i 0)

-- ─── iTunesCDB (mhbd) header offsets (src/modules/state.js) ───
def MHBD_DB_ID_OFFSET : Nat := 0x18
def MHBD_DB_ID_LEN : Nat := 8
def MHBD_HASH58_OFFSET : Nat := 0x58
def MHBD_HASH58_LEN : Nat := 20
def MHBD_HASH72_OFFSET : Nat := 0x72
def MHBD_HASH72_LEN : Nat := 46
def MHBD_HASHAB_OFFSET : Nat := 0xAB
def MHBD_HASHAB_LEN : Nat := 57
def MHBD_SCHEME_OFFSET : Nat := 0x30

/-- The byte values of the ASCII magic tag `'mhbd'` checked by
`String.fromCharCode(data[0], data[1], data[2], data[3]) !== 'mhbd'`. -/
def mhbdMagic : List Nat := [0x6d, 0x68, 0x62, 0x64]

/-- Outcome of a `recomputeITunesCDBHash` call: the two `console.warn`
early returns, the error thrown by `calcHashAB` when the WASM engine was
never initialised, and normal completion. -/
inductive PatchOutcome : Type
  | tooSmall : PatchOutcome
  | wrongFormat : PatchOutcome
  | engineNotReady : PatchOutcome
  | ok : PatchOutcome
deriving DecidableEq, Repr

/-- The four `buf.fill(0, …)` calls of `recomputeITunesCDBHash`: zero the
device-id field and the three hash regions in the working copy. -/
def zeroHashFields (buf : List Nat) : List Nat :=
  fillZero
    (fillZero
      (fillZero
        (fillZero buf MHBD_DB_ID_OFFSET (MHBD_DB_ID_OFFSET + MHBD_DB_ID_LEN))
        MHBD_HASH58_OFFSET (MHBD_HASH58_OFFSET + MHBD_HASH58_LEN))
      MHBD_HASH72_OFFSET (MHBD_HASH72_OFFSET + MHBD_HASH72_LEN))
    MHBD_HASHAB_OFFSET (MHBD_HASHAB_OFFSET + MHBD_HASHAB_LEN)

/-- `recomputeITunesCDBHash(data, uuid)` from src/modules/state.js:
validate length and magic, set the hashing-scheme field to little-endian 3,
zero the hash fields in a working copy, digest the copy, compute the HashAB
signature, and patch it into the original buffer at `0xAB`.  The returned
buffer is the state of `data` when the function returns (or when
`calcHashAB` throws), paired with the outcome. -/
def recomputeITunesCDBHash (wasmReady : Bool) (sha1 : List Nat → List Nat)
    (hashAB : List Nat → List Nat → List Nat) (data uuid : List Nat) :
    List Nat × PatchOutcome :=
  if data.length < 0xAB + 57 then (data, PatchOutcome.tooSmall)
  else if data.take 4 ≠ mhbdMagic then (data, PatchOutcome.wrongFormat)
  else
    -- data[0x30] = 0x03; data[0x31] = 0x00
    let data1 := setBytes data MHBD_SCHEME_OFFSET [0x03, 0x00]
    let buf := zeroHashFields data1
    let sha1Hash := sha1 buf
    if ¬ wasmReady then (data1, PatchOutcome.engineNotReady)
    else
      let sig := hashAB sha1Hash uuid
      (setBytes data1 MHBD_HASHAB_OFFSET sig, PatchOutcome.ok)

-- ─── Locations.itdb.cbk (src/modules/state.js) ───
def CBK_BLOCK_SIZE : Nat := 1024
def CBK_HEADER_SIZE : Nat := 57
def CBK_SHA1_SIZE : Nat := 20

/-- `numBlocks = Math.ceil(locationsData.length / CBK_BLOCK_SIZE)`. -/
def cbkNumBlocks (len : Nat) : Nat := (len + CBK_BLOCK_SIZE - 1) / CBK_BLOCK_SIZE

/-- `locationsData.slice(i*1024, min(i*1024 + 1024, locationsData.length))`. -/
def cbkBlock (src : List Nat) (i : Nat) : List Nat :=
  (src.drop (i * CBK_BLOCK_SIZE)).take CBK_BLOCK_SIZE

/-- The block actually digested: `paddedBlock = new Uint8Array(1024);
paddedBlock.set(block)` when the slice is short, the slice itself otherwise. -/
def cbkPaddedBlock (src : List Nat) (i : Nat) : List Nat :=
  let block := cbkBlock src i
  if block.length < CBK_BLOCK_SIZE then
    setBytes (List.replicate CBK_BLOCK_SIZE 0) 0 block
  else block

/-- `allHashes = new Uint8Array(numBlocks * 20)` followed by the loop
`allHashes.set(blockHashes[i], i * 20)`. -/
def cbkAllHashes (sha1 : List Nat → List Nat) (src : List Nat) : List Nat :=
  (List.range (cbkNumBlocks src.length)).foldl
    (fun acc i => setBytes acc (i * CBK_SHA1_SIZE) (sha1 (cbkPaddedBlock src i)))
    (List.replicate (cbkNumBlocks src.length * CBK_SHA1_SIZE) 0)

/-- `computeLocationsCBK(locationsData, uuid)` from src/modules/state.js:
digest each 1024-byte block, digest the concatenation of the block digests,
sign the master digest, and assemble
`[57-byte signature][20-byte master digest][block digests]` in a freshly
allocated buffer.  `none` models the error thrown by `calcHashAB` when the
WASM engine was never initialised (no buffer is returned in that case). -/
def computeLocationsCBK (wasmReady : Bool) (sha1 : List Nat → List Nat)
    (hashAB : List Nat → List Nat → List Nat) (locationsData uuid : List Nat) :
    Option (List Nat) :=
  let numBlocks := cbkNumBlocks locationsData.length
  let allHashes := cbkAllHashes sha1 locationsData
  let masterSha1 := sha1 allHashes
  if ¬ wasmReady then none
  else
    let sig := hashAB masterSha1 uuid
    let cbkSize := CBK_HEADER_SIZE + CBK_SHA1_SIZE + numBlocks * CBK_SHA1_SIZE
    some (setBytes
      (setBytes
        (setBytes (List.replicate cbkSize 0) 0 sig)
        CBK_HEADER_SIZE masterSha1)
      (CBK_HEADER_SIZE + CBK_SHA1_SIZE) allHashes)

/-- Heap-level view used for the frame property of `computeLocationsCBK`.
The heap is a list of buffers indexed by identity.  The JS function reads
`locationsData` only through `slice` (which copies) and writes only into
buffers it allocates itself (`paddedBlock`, `allHashes`, `cbk`), so its
only effect on shared storage is the allocation of the returned `cbk`
buffer, appended here as a fresh heap entry. -/
def computeLocationsCBKHeap (wasmReady : Bool) (sha1 : List Nat → List Nat)
    (hashAB : List Nat → List Nat → List Nat) (heap : List (List Nat))
    (srcId : Nat) (uuid : List Nat) :
    List (List Nat) × Option Nat :=
  match computeLocationsCBK wasmReady sha1 hashAB (heap.getD srcId []) uuid with
  | none => (heap, none)
  | some cbk => (heap ++ [cbk], some heap.length)

-- ─── parseUUID (src/modules/state.js) ───

/-- Hex-digit test used by JS `parseInt(·, 16)`. -/
def isHexDigitChar (c : Char) : Bool :=
  (('0' ≤ c) && (c ≤ '9')) || (('a' ≤ c) && (c ≤ 'f')) || (('A' ≤ c) && (c ≤ 'F'))

/-- Value of a hex digit. -/
def hexDigitVal (c : Char) : Nat :=
  if ('0' ≤ c) && (c ≤ '9') then c.toNat - '0'.toNat
  else if ('a' ≤ c) && (c ≤ 'f') then c.toNat - 'a'.toNat + 10
  else if ('A' ≤ c) && (c ≤ 'F') then c.toNat - 'A'.toNat + 10
  else 0

/-- Removal of one leading `0x`/`0X`: this is both the regex replacement
`guidStr.replace(/^0x/i, '')` and the radix-16 tag skipping performed by
JS `parseInt(·, 16)`. -/
def strip0x : List Char → List Char
  | c0 :: c1 :: rest =>
    if c0 = '0' ∧ (c1 = 'x' ∨ c1 = 'X') then rest else c0 :: c1 :: rest
  | s => s

/-- JS `parseInt(s, 16)` on the strings this module feeds it (no leading
whitespace or sign): skip an optional `0x`/`0X` tag, read the longest
prefix of hex digits, and yield its value — `none` models `NaN` when no
digit is read. -/
def parseIntHex (s : List Char) : Option Nat :=
  let digs := (strip0x s).takeWhile isHexDigitChar
  if digs.isEmpty then none
  else some (digs.foldl (fun acc c => 16 * acc + hexDigitVal c) 0)

/-- A `Uint8Array` element assignment: `NaN` is stored as `0`, numbers are
reduced mod 256. -/
def jsByteOfParse : Option Nat → Nat
  | none => 0
  | some n => n % 256

/-- `parseUUID(guidStr)` from src/modules/state.js: strip an optional
`0x` prefix, then `bytes[i] = parseInt(hex.substr(i*2, 2), 16)` for
`i = 0 … 7` into a fresh 8-byte array. -/
def parseUUID (guidStr : List Char) : List Nat :=
  let hex := strip0x guidStr
  (List.range 8).map (fun i => jsByteOfParse (parseIntHex ((hex.drop (i * 2)).take 2)))

-- ─── Stand-in engine instances (used only to instantiate witnesses) ───

/-- A concrete digest function satisfying the 20-byte output contract,
standing in for the external SHA-1 primitive in closed witnesses. -/
def demoDigest (b : List Nat) : List Nat := List.replicate 20 (b.length % 256)

/-- A concrete signer satisfying the 57-byte output contract, standing in
for the external `calcHashAB` WASM transform in closed witnesses. -/
def demoSigner (d u : List Nat) : List Nat := List.replicate 57 ((d.length + u.length) % 256)

-- ─── Index lemmas for the buffer primitives ───

theorem length_setBytes (buf : List Nat) (off : Nat) (src : List Nat) :
    (setBytes buf off src).length = buf.length := by
  simp [setBytes]

theorem getElem_setBytes (buf : List Nat) (off : Nat) (src : List Nat) (i : Nat)
    (h : i < (setBytes buf off src).length) :
    (setBytes buf off src)[i] =
      if off ≤ i ∧ i < off + src.length then src.getD (i - off) 0 else buf.getD i 0 := by
  simp [setBytes]

theorem getD_setBytes (buf : List Nat) (off : Nat) (src : List Nat) (i : Nat)
    (h : i < buf.length) :
    (setBytes buf off src).getD i 0 =
      if off ≤ i ∧ i < off + src.length then src.getD (i - off) 0 else buf.getD i 0 := by
  have hl : i < (setBytes buf off src).length := by
    rw [length_setBytes]; exact h
  rw [List.getD_eq_getElem _ _ hl, getElem_setBytes]

theorem length_fillZero (buf : List Nat) (start stop : Nat) :
    (fillZero buf start stop).length = buf.length := by
  simp [fillZero]

theorem getD_fillZero (buf : List Nat) (start stop : Nat) (i : Nat)
    (h : i < buf.length) :
    (fillZero buf start stop).getD i 0 =
      if start ≤ i ∧ i < stop then 0 else buf.getD i 0 := by
  have hl : i < (fillZero buf start stop).length := by
    rw [length_fillZero]; exact h
  rw [List.getD_eq_getElem _ _ hl]
  simp [fillZero]

theorem length_zeroHashFields (buf : List Nat) :
    (zeroHashFields buf).length = buf.length := by
  simp [zeroHashFields, length_fillZero]

/-- Membership in one of the four regions zeroed in the working copy. -/
def inZeroedRegion (i : Nat) : Prop :=
  (0x18 ≤ i ∧ i < 0x20) ∨ (0x58 ≤ i ∧ i < 0x6C) ∨
  (0x72 ≤ i ∧ i < 0xA0) ∨ (0xAB ≤ i ∧ i < 0xE4)

instance (i : Nat) : Decidable (inZeroedRegion i) := by
  unfold inZeroedRegion; infer_instance

theorem getD_zeroHashFields (buf : List Nat) (i : Nat) (h : i < buf.length) :
    (zeroHashFields buf).getD i 0 =
      if inZeroedRegion i then 0 else buf.getD i 0 := by
  unfold zeroHashFields
  rw [getD_fillZero _ _ _ _ (by simp [length_fillZero]; exact h),
      getD_fillZero _ _ _ _ (by simp [length_fillZero]; exact h),
      getD_fillZero _ _ _ _ (by simp [length_fillZero]; exact h),
      getD_fillZero _ _ _ _ h]
  unfold inZeroedRegion
  unfold MHBD_DB_ID_OFFSET MHBD_DB_ID_LEN MHBD_HASH58_OFFSET MHBD_HASH58_LEN
    MHBD_HASH72_OFFSET MHBD_HASH72_LEN MHBD_HASHAB_OFFSET MHBD_HASHAB_LEN
  split_ifs <;> omega

/-- The bytes written by `setBytes` can be read back as a slice. -/
theorem slice_setBytes (buf : List Nat) (off : Nat) (src : List Nat)
    (h : off + src.length ≤ buf.length) :
    ((setBytes buf off src).drop off).take src.length = src := by
  apply List.ext_getElem
  · simp [length_setBytes]; omega
  · intro j h1 h2
    rw [List.getElem_take, List.getElem_drop, getElem_setBytes]
    have hj : j < src.length := h2
    rw [if_pos (by omega)]
    have : off + j - off = j := by omega
    rw [this, List.getD_eq_getElem _ _ hj]

/-- Pointwise (`getD`-based) extensionality for byte buffers. -/
theorem ext_getD (l1 l2 : List Nat) (hlen : l1.length = l2.length)
    (h : ∀ i, i < l1.length → l1.getD i 0 = l2.getD i 0) : l1 = l2 := by
  apply List.ext_getElem hlen
  intro i h1 h2
  have hi := h i h1
  rwa [List.getD_eq_getElem _ _ h1, List.getD_eq_getElem _ _ h2] at hi

/-- On a buffer of valid length with the `mhbd` magic and a ready engine,
`recomputeITunesCDBHash` runs the full pipeline: scheme write, zeroed copy,
digest, sign, signature patch. -/
theorem recompute_ok_eq (sha1 : List Nat → List Nat)
    (hashAB : List Nat → List Nat → List Nat) (data uuid : List Nat)
    (hlen : 0xAB + 57 ≤ data.length) (hmagic : data.take 4 = mhbdMagic) :
    recomputeITunesCDBHash true sha1 hashAB data uuid =
      (setBytes (setBytes data MHBD_SCHEME_OFFSET [0x03, 0x00]) MHBD_HASHAB_OFFSET
        (hashAB (sha1 (zeroHashFields (setBytes data MHBD_SCHEME_OFFSET [0x03, 0x00]))) uuid),
       PatchOutcome.ok) := by
  unfold recomputeITunesCDBHash
  rw [if_neg (by omega), if_neg (by simp [hmagic])]
  simp

/-- The first four bytes are untouched by writes at offsets `≥ 4`. -/
theorem take4_setBytes (buf : List Nat) (off : Nat) (src : List Nat)
    (hoff : 4 ≤ off) (hlen : 4 ≤ buf.length) :
    (setBytes buf off src).take 4 = buf.take 4 := by
  apply List.ext_getElem
  · simp [length_setBytes]
  · intro i h1 h2
    rw [List.getElem_take, List.getElem_take, getElem_setBytes]
    have hi4 : i < 4 := by
      simp [length_setBytes] at h1
      omega
    rw [if_neg (by omega), List.getD_eq_getElem _ _ (by omega)]

/-- C5 — theorem `TunesHashAB.recompute_rejects_invalid`:
a container buffer shorter than `0xAB + 57` bytes is returned with every
byte unchanged and the `TooSmall` condition; a long-enough buffer whose
first four bytes are not the `mhbd` magic is returned with every byte
unchanged and the `WrongFormat` condition.  Both equalities hold for every
readiness state and every pair of engine functions, so no digest or
signature computation influences the result. -/
theorem recompute_rejects_invalid (data : List Nat) :
    (data.length < 0xAB + 57 →
      ∀ (wasmReady : Bool) (sha1 : List Nat → List Nat)
        (hashAB : List Nat → List Nat → List Nat) (uuid : List Nat),
        recomputeITunesCDBHash wasmReady sha1 hashAB data uuid =
          (data, PatchOutcome.tooSmall)) ∧
    (0xAB + 57 ≤ data.length → data.take 4 ≠ mhbdMagic →
      ∀ (wasmReady : Bool) (sha1 : List Nat → List Nat)
        (hashAB : List Nat → List Nat → List Nat) (uuid : List Nat),
        recomputeITunesCDBHash wasmReady sha1 hashAB data uuid =
          (data, PatchOutcome.wrongFormat)) := by
  constructor
  · intro h _ _ _ _
    unfold recomputeITunesCDBHash
    rw [if_pos h]
  · intro h hm _ _ _ _
    unfold recomputeITunesCDBHash
    rw [if_neg (by omega), if_pos hm]

/-- Witness for C5 at the empty buffer and at an all-zero buffer of exactly
the minimum length (whose magic is wrong). -/
theorem recompute_rejects_invalid_witness :
    recomputeITunesCDBHash true demoDigest demoSigner [] [] =
      ([], PatchOutcome.tooSmall) ∧
    recomputeITunesCDBHash true demoDigest demoSigner (List.replicate 228 0) [] =
      (List.replicate 228 0, PatchOutcome.wrongFormat) :=
  ⟨(recompute_rejects_invalid []).1 (by decide) true demoDigest demoSigner [],
   (recompute_rejects_invalid (List.replicate 228 0)).2 (by simp) (by decide)
     true demoDigest demoSigner []⟩

/-- C4 — counterexample `TunesHashAB.recompute_scheme_counterexample`:
the claim quantifies over *every* container buffer, but a buffer of
sufficient length whose magic is not `mhbd` is returned unchanged, so its
hashing-scheme field keeps its prior value (here `0x00`, not `0x03`). -/
theorem recompute_scheme_counterexample :
    ((recomputeITunesCDBHash true demoDigest demoSigner
        (List.replicate 228 0) (List.replicate 8 0)).1).getD 0x30 0 = 0 ∧
    ((recomputeITunesCDBHash true demoDigest demoSigner
        (List.replicate 228 0) (List.replicate 8 0)).1).getD 0x30 0 ≠ 0x03 := by
  constructor <;> decide

/-- C4 (amended) — theorem `TunesHashAB.recompute_sets_scheme`:
for every container buffer of sufficient length whose first four bytes are
the `mhbd` magic, after `recomputeITunesCDBHash` the 2-byte hashing-scheme
field at offset `0x30` holds the little-endian value 3 (bytes `03 00`),
for every engine readiness state and every pair of engine functions. -/
theorem recompute_sets_scheme (wasmReady : Bool) (sha1 : List Nat → List Nat)
    (hashAB : List Nat → List Nat → List Nat) (data uuid : List Nat)
    (hlen : 0xAB + 57 ≤ data.length) (hmagic : data.take 4 = mhbdMagic) :
    ((recomputeITunesCDBHash wasmReady sha1 hashAB data uuid).1).getD 0x30 0 = 0x03 ∧
    ((recomputeITunesCDBHash wasmReady sha1 hashAB data uuid).1).getD 0x31 0 = 0x00 := by
  have hd30 : (setBytes data MHBD_SCHEME_OFFSET [0x03, 0x00]).getD 0x30 0 = 0x03 := by
    unfold MHBD_SCHEME_OFFSET
    rw [getD_setBytes _ _ _ _ (by omega), if_pos (by decide)]
    decide
  have hd31 : (setBytes data MHBD_SCHEME_OFFSET [0x03, 0x00]).getD 0x31 0 = 0x00 := by
    unfold MHBD_SCHEME_OFFSET
    rw [getD_setBytes _ _ _ _ (by omega), if_pos (by decide)]
    decide
  have hs : ∀ sig : List Nat,
      (setBytes (setBytes data MHBD_SCHEME_OFFSET [0x03, 0x00]) MHBD_HASHAB_OFFSET sig).getD 0x30 0
        = 0x03 ∧
      (setBytes (setBytes data MHBD_SCHEME_OFFSET [0x03, 0x00]) MHBD_HASHAB_OFFSET sig).getD 0x31 0
        = 0x00 := by
    intro sig
    constructor
    · rw [getD_setBytes _ _ _ _ (by rw [length_setBytes]; omega),
          if_neg (by unfold MHBD_HASHAB_OFFSET; omega)]
      exact hd30
    · rw [getD_setBytes _ _ _ _ (by rw [length_setBytes]; omega),
          if_neg (by unfold MHBD_HASHAB_OFFSET; omega)]
      exact hd31
  cases wasmReady with
  | true =>
      rw [recompute_ok_eq sha1 hashAB data uuid hlen hmagic]
      exact hs _
  | false =>
      unfold recomputeITunesCDBHash
      rw [if_neg (by omega), if_neg (by simp [hmagic])]
      exact ⟨hd30, hd31⟩

/-- Witness for C4 (amended) at a concrete minimal valid buffer. -/
theorem recompute_sets_scheme_witness :
    ((recomputeITunesCDBHash true demoDigest demoSigner
        (mhbdMagic ++ List.replicate 224 0) (List.replicate 8 0)).1).getD 0x30 0 = 0x03 ∧
    ((recomputeITunesCDBHash true demoDigest demoSigner
        (mhbdMagic ++ List.replicate 224 0) (List.replicate 8 0)).1).getD 0x31 0 = 0x00 :=
  recompute_sets_scheme true demoDigest demoSigner
    (mhbdMagic ++ List.replicate 224 0) (List.replicate 8 0) (by decide) (by decide)

/-- C10 — theorem `TunesHashAB.recompute_mutates_on_engine_error`:
on a valid `mhbd` container, invoking `recomputeITunesCDBHash` before the
WASM engine is initialised raises the not-initialised error from
`calcHashAB`, yet the buffer has already been mutated: the hashing-scheme
field at `0x30` holds bytes `03 00` while every other byte — in particular
the whole 57-byte signature region at `0xAB` — is unchanged. -/
theorem recompute_mutates_on_engine_error (sha1 : List Nat → List Nat)
    (hashAB : List Nat → List Nat → List Nat) (data uuid : List Nat)
    (hlen : 0xAB + 57 ≤ data.length) (hmagic : data.take 4 = mhbdMagic) :
    (recomputeITunesCDBHash false sha1 hashAB data uuid).2 = PatchOutcome.engineNotReady ∧
    ((recomputeITunesCDBHash false sha1 hashAB data uuid).1).getD 0x30 0 = 0x03 ∧
    ((recomputeITunesCDBHash false sha1 hashAB data uuid).1).getD 0x31 0 = 0x00 ∧
    ((recomputeITunesCDBHash false sha1 hashAB data uuid).1).length = data.length ∧
    (∀ i, i < data.length → i ≠ 0x30 → i ≠ 0x31 →
      ((recomputeITunesCDBHash false sha1 hashAB data uuid).1).getD i 0 = data.getD i 0) := by
  have heq : recomputeITunesCDBHash false sha1 hashAB data uuid =
      (setBytes data MHBD_SCHEME_OFFSET [0x03, 0x00], PatchOutcome.engineNotReady) := by
    unfold recomputeITunesCDBHash
    rw [if_neg (by omega), if_neg (by simp [hmagic])]
    simp
  rw [heq]
  refine ⟨rfl, ?_, ?_, length_setBytes _ _ _, ?_⟩
  · unfold MHBD_SCHEME_OFFSET
    rw [getD_setBytes _ _ _ _ (by omega), if_pos (by decide)]
    decide
  · unfold MHBD_SCHEME_OFFSET
    rw [getD_setBytes _ _ _ _ (by omega), if_pos (by decide)]
    decide
  · intro i hi h30 h31
    unfold MHBD_SCHEME_OFFSET
    have hcond : ¬ (48 ≤ i ∧ i < 48 + [0x03, 0x00].length) := by
      simp only [List.length_cons, List.length_nil]
      omega
    rw [getD_setBytes _ _ _ _ hi, if_neg hcond]

/-- Witness for C10 at a concrete minimal valid buffer: the error outcome,
the patched scheme byte, and one untouched signature byte. -/
theorem recompute_mutates_on_engine_error_witness :
    (recomputeITunesCDBHash false demoDigest demoSigner
        (mhbdMagic ++ List.replicate 224 0) (List.replicate 8 0)).2 =
      PatchOutcome.engineNotReady ∧
    ((recomputeITunesCDBHash false demoDigest demoSigner
        (mhbdMagic ++ List.replicate 224 0) (List.replicate 8 0)).1).getD 0x30 0 = 0x03 ∧
    ((recomputeITunesCDBHash false demoDigest demoSigner
        (mhbdMagic ++ List.replicate 224 0) (List.replicate 8 0)).1).getD 0xAB 0 =
      (mhbdMagic ++ List.replicate 224 0).getD 0xAB 0 := by
  have h := recompute_mutates_on_engine_error demoDigest demoSigner
      (mhbdMagic ++ List.replicate 224 0) (List.replicate 8 0) (by decide) (by decide)
  exact ⟨h.1, h.2.1, h.2.2.2.2 0xAB (by decide) (by decide) (by decide)⟩

/-- C6 — theorem `TunesHashAB.recompute_frame`:
a successful `recomputeITunesCDBHash` writes only the 57-byte signature
region at `0xAB` and the 2-byte scheme field at `0x30` into the original
buffer: its length is preserved and every byte outside those two regions —
including the device-identifier field at `0x18` and the digest regions at
`0x58` and `0x72`, which are zeroed only in the working copy — keeps its
prior value. -/
theorem recompute_frame (sha1 : List Nat → List Nat)
    (hashAB : List Nat → List Nat → List Nat) (data uuid : List Nat)
    (hlen : 0xAB + 57 ≤ data.length) (hmagic : data.take 4 = mhbdMagic)
    (hsig : ∀ d u, (hashAB d u).length = 57) :
    (recomputeITunesCDBHash true sha1 hashAB data uuid).2 = PatchOutcome.ok ∧
    ((recomputeITunesCDBHash true sha1 hashAB data uuid).1).length = data.length ∧
    (∀ i, i < data.length →
      ¬ (MHBD_SCHEME_OFFSET ≤ i ∧ i < MHBD_SCHEME_OFFSET + 2) →
      ¬ (MHBD_HASHAB_OFFSET ≤ i ∧ i < MHBD_HASHAB_OFFSET + MHBD_HASHAB_LEN) →
      ((recomputeITunesCDBHash true sha1 hashAB data uuid).1).getD i 0 = data.getD i 0) := by
  rw [recompute_ok_eq sha1 hashAB data uuid hlen hmagic]
  refine ⟨rfl, by simp [length_setBytes], ?_⟩
  intro i hi hns hnh
  unfold MHBD_SCHEME_OFFSET MHBD_HASHAB_OFFSET MHBD_HASHAB_LEN at *
  have hcond : ¬ (48 ≤ i ∧ i < 48 + [0x03, 0x00].length) := by
    simp only [List.length_cons, List.length_nil]
    omega
  rw [getD_setBytes _ _ _ _ (by rw [length_setBytes]; omega),
      if_neg (by rw [hsig]; omega),
      getD_setBytes _ _ _ _ hi,
      if_neg hcond]

/-- Witness for C6 at a concrete minimal valid buffer: success outcome,
preserved length, and an untouched device-identifier byte at `0x18`. -/
theorem recompute_frame_witness :
    (recomputeITunesCDBHash true demoDigest demoSigner
        (mhbdMagic ++ List.replicate 224 0) (List.replicate 8 0)).2 = PatchOutcome.ok ∧
    ((recomputeITunesCDBHash true demoDigest demoSigner
        (mhbdMagic ++ List.replicate 224 0) (List.replicate 8 0)).1).length = 228 ∧
    ((recomputeITunesCDBHash true demoDigest demoSigner
        (mhbdMagic ++ List.replicate 224 0) (List.replicate 8 0)).1).getD 0x18 0 =
      (mhbdMagic ++ List.replicate 224 0).getD 0x18 0 := by
  have h := recompute_frame demoDigest demoSigner
      (mhbdMagic ++ List.replicate 224 0) (List.replicate 8 0) (by decide) (by decide)
      (fun d u => by simp [demoSigner])
  exact ⟨h.1, by rw [h.2.1]; decide, h.2.2 0x18 (by decide) (by decide) (by decide)⟩

/-- Re-running the scheme write and the zeroing steps on an already-patched
buffer cancels the previous signature patch: the zeroed working copy of the
patched buffer equals the zeroed working copy of the original. -/
theorem zeroHashFields_after_patch (data p sig : List Nat)
    (hsl : sig.length ≤ 57) :
    zeroHashFields (setBytes (setBytes (setBytes data MHBD_SCHEME_OFFSET p)
        MHBD_HASHAB_OFFSET sig) MHBD_SCHEME_OFFSET p) =
      zeroHashFields (setBytes data MHBD_SCHEME_OFFSET p) := by
  apply ext_getD
  · simp [length_zeroHashFields, length_setBytes]
  · intro i hi
    have hi' : i < data.length := by
      simpa [length_zeroHashFields, length_setBytes] using hi
    rw [getD_zeroHashFields _ _ (by simp [length_setBytes]; exact hi'),
        getD_zeroHashFields _ _ (by simp [length_setBytes]; exact hi')]
    by_cases hz : inZeroedRegion i
    · rw [if_pos hz, if_pos hz]
    · rw [if_neg hz, if_neg hz,
          getD_setBytes _ _ _ _ (by simp [length_setBytes]; exact hi'),
          getD_setBytes _ _ _ _ hi']
      by_cases hp : MHBD_SCHEME_OFFSET ≤ i ∧ i < MHBD_SCHEME_OFFSET + p.length
      · rw [if_pos hp, if_pos hp]
      · have hnot : ¬ (MHBD_HASHAB_OFFSET ≤ i ∧ i < MHBD_HASHAB_OFFSET + sig.length) := by
          unfold inZeroedRegion at hz
          unfold MHBD_HASHAB_OFFSET
          omega
        rw [if_neg hp, if_neg hp,
            getD_setBytes _ _ _ _ (by simp [length_setBytes]; exact hi'),
            if_neg hnot,
            getD_setBytes _ _ _ _ hi', if_neg hp]

/-- C1 — theorem `TunesHashAB.recompute_idempotent`:
on a container of sufficient length with the `mhbd` magic,
`recomputeITunesCDBHash` is idempotent: both runs succeed and the second
run, applied to the already-patched buffer with the same device id, writes
exactly the same 57 signature bytes at `0xAB` as the first run (the zeroing
of the working copy makes the digest independent of the prior signature). -/
theorem recompute_idempotent (sha1 : List Nat → List Nat)
    (hashAB : List Nat → List Nat → List Nat) (data uuid : List Nat)
    (hlen : 0xAB + 57 ≤ data.length) (hmagic : data.take 4 = mhbdMagic)
    (hsig : ∀ d u, (hashAB d u).length = 57) :
    (recomputeITunesCDBHash true sha1 hashAB data uuid).2 = PatchOutcome.ok ∧
    (recomputeITunesCDBHash true sha1 hashAB
      (recomputeITunesCDBHash true sha1 hashAB data uuid).1 uuid).2 = PatchOutcome.ok ∧
    (((recomputeITunesCDBHash true sha1 hashAB
        (recomputeITunesCDBHash true sha1 hashAB data uuid).1 uuid).1).drop 0xAB).take 57 =
      (((recomputeITunesCDBHash true sha1 hashAB data uuid).1).drop 0xAB).take 57 := by
  have hslice : ∀ (X sg : List Nat), 0xAB + 57 ≤ X.length → sg.length = 57 →
      ((setBytes X 0xAB sg).drop 0xAB).take 57 = sg := by
    intro X sg hX hsg
    have h := slice_setBytes X 0xAB sg (by omega)
    rw [hsg] at h
    exact h
  have h1 := recompute_ok_eq sha1 hashAB data uuid hlen hmagic
  have hd1 : (recomputeITunesCDBHash true sha1 hashAB data uuid).1 =
      setBytes (setBytes data MHBD_SCHEME_OFFSET [0x03, 0x00]) MHBD_HASHAB_OFFSET
        (hashAB (sha1 (zeroHashFields (setBytes data MHBD_SCHEME_OFFSET [0x03, 0x00]))) uuid) := by
    rw [h1]
  have hd1len : ((recomputeITunesCDBHash true sha1 hashAB data uuid).1).length = data.length := by
    rw [hd1, length_setBytes, length_setBytes]
  have hd1magic : ((recomputeITunesCDBHash true sha1 hashAB data uuid).1).take 4 = mhbdMagic := by
    rw [hd1,
        take4_setBytes _ _ _ (by unfold MHBD_HASHAB_OFFSET; omega)
          (by rw [length_setBytes]; omega),
        take4_setBytes _ _ _ (by unfold MHBD_SCHEME_OFFSET; omega) (by omega), hmagic]
  have h2 := recompute_ok_eq sha1 hashAB
      ((recomputeITunesCDBHash true sha1 hashAB data uuid).1) uuid
      (by rw [hd1len]; omega) hd1magic
  refine ⟨by rw [h1], by rw [h2], ?_⟩
  rw [h2]
  dsimp only
  rw [hd1]
  rw [zeroHashFields_after_patch data [0x03, 0x00]
        (hashAB (sha1 (zeroHashFields (setBytes data MHBD_SCHEME_OFFSET [0x03, 0x00]))) uuid)
        (by rw [hsig])]
  unfold MHBD_HASHAB_OFFSET
  rw [hslice _ _ (by simp only [length_setBytes]; omega) (hsig _ _),
      hslice _ _ (by simp only [length_setBytes]; omega) (hsig _ _)]

/-- Witness for C1 at a concrete minimal valid buffer and device id. -/
theorem recompute_idempotent_witness :
    (recomputeITunesCDBHash true demoDigest demoSigner
        (mhbdMagic ++ List.replicate 224 0) (List.replicate 8 0)).2 = PatchOutcome.ok ∧
    (((recomputeITunesCDBHash true demoDigest demoSigner
        (recomputeITunesCDBHash true demoDigest demoSigner
          (mhbdMagic ++ List.replicate 224 0) (List.replicate 8 0)).1
        (List.replicate 8 0)).1).drop 0xAB).take 57 =
      (((recomputeITunesCDBHash true demoDigest demoSigner
        (mhbdMagic ++ List.replicate 224 0) (List.replicate 8 0)).1).drop 0xAB).take 57 := by
  have h := recompute_idempotent demoDigest demoSigner
      (mhbdMagic ++ List.replicate 224 0) (List.replicate 8 0) (by decide) (by decide)
      (fun d u => by simp [demoSigner])
  exact ⟨h.1, h.2.2⟩

-- ─── Checksum-file (cbk) lemmas ───

/-- A fold of in-bounds writes never changes the buffer length. -/
theorem foldl_setBytes_length (f : Nat → List Nat) (g : Nat → Nat) :
    ∀ (L : List Nat) (acc : List Nat),
      (L.foldl (fun a i => setBytes a (g i) (f i)) acc).length = acc.length := by
  intro L
  induction L with
  | nil => intro acc; rfl
  | cons x xs ih => intro acc; rw [List.foldl_cons, ih, length_setBytes]

theorem cbkAllHashes_length (sha1 : List Nat → List Nat) (src : List Nat) :
    (cbkAllHashes sha1 src).length = cbkNumBlocks src.length * 20 := by
  unfold cbkAllHashes CBK_SHA1_SIZE
  exact (foldl_setBytes_length (fun i => sha1 (cbkPaddedBlock src i))
      (fun i => i * 20) _ _).trans (List.length_replicate _ _)

/-- A slice disjoint from the written region reads through `setBytes`. -/
theorem slice_setBytes_outside (buf : List Nat) (off : Nat) (src : List Nat) (a len : Nat)
    (h : a + len ≤ off ∨ off + src.length ≤ a) :
    ((setBytes buf off src).drop a).take len = (buf.drop a).take len := by
  apply List.ext_getElem
  · simp [length_setBytes]
  · intro j h1 h2
    have hj : a + j < buf.length := by
      simp [length_setBytes] at h1
      omega
    have hlt : j < len := by
      simp [length_setBytes] at h1
      omega
    rw [List.getElem_take, List.getElem_drop, List.getElem_take, List.getElem_drop,
        getElem_setBytes, if_neg (by omega), List.getD_eq_getElem _ _ hj]

/-- A slice inside the written region reads the written bytes. -/
theorem slice_setBytes_inside (buf : List Nat) (off : Nat) (src : List Nat) (a len : Nat)
    (h1 : off ≤ a) (h2 : a + len ≤ off + src.length) (h3 : off + src.length ≤ buf.length) :
    ((setBytes buf off src).drop a).take len = (src.drop (a - off)).take len := by
  apply List.ext_getElem
  · simp [length_setBytes]
    omega
  · intro j hj1 hj2
    have hjl : j < len := by
      simp [length_setBytes] at hj1
      omega
    rw [List.getElem_take, List.getElem_drop, List.getElem_take, List.getElem_drop,
        getElem_setBytes, if_pos (by omega)]
    have harith : a + j - off = a - off + j := by omega
    rw [harith, List.getD_eq_getElem _ _ (by omega)]

/-- Each 20-byte slot of the fold of `allHashes.set(blockHashes[i], i*20)`
holds the corresponding block digest. -/
theorem fold_slice (f : Nat → List Nat) (hf : ∀ i, (f i).length = 20) :
    ∀ (n : Nat) (base : List Nat), n * 20 ≤ base.length → ∀ i, i < n →
      (((List.range n).foldl (fun acc j => setBytes acc (j * 20) (f j)) base).drop
          (i * 20)).take 20 = f i := by
  intro n
  induction n with
  | zero => intro base hb i hi; exact absurd hi (by omega)
  | succ n ih =>
      intro base hb i hi
      rw [List.range_succ, List.foldl_append, List.foldl_cons, List.foldl_nil]
      have hlen : ((List.range n).foldl (fun acc j => setBytes acc (j * 20) (f j)) base).length
          = base.length := foldl_setBytes_length _ _ _ _
      by_cases hin : i < n
      · rw [slice_setBytes_outside _ _ _ _ _ (Or.inl (by omega))]
        exact ih base (by omega) i hin
      · have hieq : i = n := by omega
        subst hieq
        have h := slice_setBytes
            ((List.range i).foldl (fun acc j => setBytes acc (j * 20) (f j)) base)
            (i * 20) (f i) (by rw [hf, hlen]; omega)
        rw [hf] at h
        exact h

theorem cbkAllHashes_slice (sha1 : List Nat → List Nat) (src : List Nat)
    (hsha : ∀ b, (sha1 b).length = 20) (i : Nat) (hi : i < cbkNumBlocks src.length) :
    ((cbkAllHashes sha1 src).drop (i * 20)).take 20 = sha1 (cbkPaddedBlock src i) := by
  unfold cbkAllHashes CBK_SHA1_SIZE
  exact fold_slice (fun j => sha1 (cbkPaddedBlock src j)) (fun j => hsha _)
      (cbkNumBlocks src.length) _ (by rw [List.length_replicate]) i hi

/-- With a ready engine `computeLocationsCBK` returns the assembled file. -/
theorem cbk_ok_eq (sha1 : List Nat → List Nat)
    (hashAB : List Nat → List Nat → List Nat) (src uuid : List Nat) :
    computeLocationsCBK true sha1 hashAB src uuid =
      some (setBytes
        (setBytes
          (setBytes
            (List.replicate (CBK_HEADER_SIZE + CBK_SHA1_SIZE +
              cbkNumBlocks src.length * CBK_SHA1_SIZE) 0)
            0 (hashAB (sha1 (cbkAllHashes sha1 src)) uuid))
          CBK_HEADER_SIZE (sha1 (cbkAllHashes sha1 src)))
        (CBK_HEADER_SIZE + CBK_SHA1_SIZE) (cbkAllHashes sha1 src)) := by
  unfold computeLocationsCBK
  simp

theorem cbkBlock_length (src : List Nat) (i : Nat) :
    (cbkBlock src i).length = min 1024 (src.length - i * 1024) := by
  simp [cbkBlock, CBK_BLOCK_SIZE]

/-- Writing a short block into a fresh zero block appends zero padding. -/
theorem setBytes_replicate_zero (c : Nat) (src : List Nat) (h : src.length ≤ c) :
    setBytes (List.replicate c 0) 0 src = src ++ List.replicate (c - src.length) 0 := by
  apply List.ext_getElem
  · simp [length_setBytes]
    omega
  · intro i h1 h2
    have hi : i < c := by simpa [length_setBytes] using h1
    rw [getElem_setBytes]
    by_cases hs : i < src.length
    · rw [if_pos (by omega), Nat.sub_zero, List.getD_eq_getElem _ _ hs,
          List.getElem_append_left]
    · rw [if_neg (by omega), List.getD_eq_getElem _ _ (by simpa using hi),
          List.getElem_replicate, List.getElem_append_right (by omega),
          List.getElem_replicate]

theorem cbkPaddedBlock_full (src : List Nat) (i : Nat)
    (h : (cbkBlock src i).length = 1024) :
    cbkPaddedBlock src i = cbkBlock src i := by
  unfold cbkPaddedBlock CBK_BLOCK_SIZE
  rw [if_neg (by omega)]

theorem cbkPaddedBlock_short (src : List Nat) (i : Nat)
    (h : (cbkBlock src i).length < 1024) :
    cbkPaddedBlock src i =
      cbkBlock src i ++ List.replicate (1024 - (cbkBlock src i).length) 0 := by
  unfold cbkPaddedBlock CBK_BLOCK_SIZE
  rw [if_pos (by omega)]
  exact setBytes_replicate_zero 1024 _ (by omega)

/-- C2 — theorem `TunesHashAB.cbk_length`:
the checksum file built by `computeLocationsCBK` always has length
`77 + 20 * ceil(len(source)/1024)`; in particular an empty source buffer
yields exactly 77 bytes. -/
theorem cbk_length (sha1 : List Nat → List Nat)
    (hashAB : List Nat → List Nat → List Nat) (src uuid out : List Nat)
    (h : computeLocationsCBK true sha1 hashAB src uuid = some out) :
    out.length = 77 + 20 * ((src.length + 1024 - 1) / 1024) ∧
    (src.length = 0 → out.length = 77) := by
  rw [cbk_ok_eq] at h
  have hout := Option.some.inj h
  constructor
  · rw [← hout]
    simp only [length_setBytes, List.length_replicate]
    unfold cbkNumBlocks CBK_HEADER_SIZE CBK_SHA1_SIZE CBK_BLOCK_SIZE
    omega
  · intro hz
    rw [← hout]
    simp only [length_setBytes, List.length_replicate]
    unfold cbkNumBlocks CBK_HEADER_SIZE CBK_SHA1_SIZE CBK_BLOCK_SIZE
    omega

/-- Witness for C2: the empty source buffer yields a 77-byte file. -/
theorem cbk_length_witness :
    ∃ out, computeLocationsCBK true demoDigest demoSigner [] [] = some out ∧
      out.length = 77 :=
  ⟨_, cbk_ok_eq demoDigest demoSigner [] [],
   (cbk_length demoDigest demoSigner [] [] _
     (cbk_ok_eq demoDigest demoSigner [] [])).2 rfl⟩

/-- C3 — theorem `TunesHashAB.cbk_block_digests`:
in the checksum file, the 20-byte slot for block `i` holds the digest of
the (padded) bytes `[i*1024, (i+1)*1024)` of the source; when the source
length is an exact multiple of 1024 every block is digested as-is with no
zero-padding, and otherwise only the final block is right-padded with zero
bytes to exactly 1024 bytes before digesting. -/
theorem cbk_block_digests (sha1 : List Nat → List Nat)
    (hashAB : List Nat → List Nat → List Nat) (src uuid out : List Nat)
    (hsha : ∀ b, (sha1 b).length = 20)
    (h : computeLocationsCBK true sha1 hashAB src uuid = some out) :
    (∀ i, i < cbkNumBlocks src.length →
      (out.drop (77 + 20 * i)).take 20 = sha1 (cbkPaddedBlock src i)) ∧
    (src.length % 1024 = 0 → ∀ i, i < cbkNumBlocks src.length →
      cbkPaddedBlock src i = cbkBlock src i ∧ (cbkBlock src i).length = 1024) ∧
    (src.length % 1024 ≠ 0 →
      (∀ i, i + 1 < cbkNumBlocks src.length →
        cbkPaddedBlock src i = cbkBlock src i ∧ (cbkBlock src i).length = 1024) ∧
      cbkPaddedBlock src (cbkNumBlocks src.length - 1) =
        cbkBlock src (cbkNumBlocks src.length - 1) ++
          List.replicate (1024 - src.length % 1024) 0 ∧
      (cbkBlock src (cbkNumBlocks src.length - 1)).length = src.length % 1024) := by
  rw [cbk_ok_eq] at h
  have hout := Option.some.inj h
  have hnb : cbkNumBlocks src.length = (src.length + 1023) / 1024 := by
    unfold cbkNumBlocks CBK_BLOCK_SIZE
    omega
  have hall : (cbkAllHashes sha1 src).length = cbkNumBlocks src.length * 20 :=
    cbkAllHashes_length sha1 src
  refine ⟨?_, ?_, ?_⟩
  · intro i hi
    rw [← hout]
    unfold CBK_HEADER_SIZE CBK_SHA1_SIZE
    rw [slice_setBytes_inside _ _ _ _ _ (by omega)
          (by rw [hall]; omega)
          (by rw [length_setBytes, length_setBytes, List.length_replicate, hall])]
    have harith : 77 + 20 * i - (57 + 20) = i * 20 := by omega
    rw [harith]
    exact cbkAllHashes_slice sha1 src hsha i hi
  · intro hm i hi
    rw [hnb] at hi
    have hb : (cbkBlock src i).length = 1024 := by
      rw [cbkBlock_length]
      omega
    exact ⟨cbkPaddedBlock_full src i hb, hb⟩
  · intro hm
    constructor
    · intro i hi
      rw [hnb] at hi
      have hb : (cbkBlock src i).length = 1024 := by
        rw [cbkBlock_length]
        omega
      exact ⟨cbkPaddedBlock_full src i hb, hb⟩
    · have hb : (cbkBlock src (cbkNumBlocks src.length - 1)).length = src.length % 1024 := by
        rw [cbkBlock_length, hnb]
        omega
      refine ⟨?_, hb⟩
      rw [cbkPaddedBlock_short src _ (by rw [hb]; omega), hb]

/-- Witness for C3 at a one-byte source (a single zero-padded block):
its only digest slot holds the digest of the padded block. -/
theorem cbk_block_digests_witness :
    ∃ out, computeLocationsCBK true demoDigest demoSigner [7] [] = some out ∧
      (out.drop 77).take 20 = demoDigest (cbkPaddedBlock [7] 0) ∧
      cbkPaddedBlock [7] 0 = [7] ++ List.replicate 1023 0 := by
  refine ⟨_, cbk_ok_eq demoDigest demoSigner [7] [], ?_, ?_⟩
  · have h := (cbk_block_digests demoDigest demoSigner [7] [] _
        (fun b => by simp [demoDigest])
        (cbk_ok_eq demoDigest demoSigner [7] [])).1 0 (by decide)
    simpa using h
  · have h := ((cbk_block_digests demoDigest demoSigner [7] [] _
        (fun b => by simp [demoDigest])
        (cbk_ok_eq demoDigest demoSigner [7] [])).2.2 (by decide)).2.1
    simpa using h

/-- C7 — theorem `TunesHashAB.cbkHeap_no_mutation`:
in the heap model, `computeLocationsCBK` leaves every pre-existing buffer —
in particular the source buffer — byte-for-byte unchanged, and any returned
checksum file is a freshly allocated buffer (its identity is new, not that
of any existing heap entry). -/
theorem cbkHeap_no_mutation (wasmReady : Bool) (sha1 : List Nat → List Nat)
    (hashAB : List Nat → List Nat → List Nat) (heap : List (List Nat))
    (srcId : Nat) (uuid : List Nat) :
    (∀ j, j < heap.length →
      ((computeLocationsCBKHeap wasmReady sha1 hashAB heap srcId uuid).1).getD j [] =
        heap.getD j []) ∧
    (∀ rid, (computeLocationsCBKHeap wasmReady sha1 hashAB heap srcId uuid).2 = some rid →
      heap.length ≤ rid) := by
  unfold computeLocationsCBKHeap
  cases hc : computeLocationsCBK wasmReady sha1 hashAB (heap.getD srcId []) uuid with
  | none =>
      refine ⟨fun j hj => rfl, fun rid hr => ?_⟩
      simp at hr
  | some cbk =>
      refine ⟨fun j hj => ?_, fun rid hr => ?_⟩
      · exact List.getD_append _ _ _ _ hj
      · simp at hr
        omega

/-- Witness for C7 at a one-buffer heap: the source entry is unchanged and
the returned identity is fresh. -/
theorem cbkHeap_no_mutation_witness :
    ((computeLocationsCBKHeap true demoDigest demoSigner [[1, 2, 3]] 0 []).1).getD 0 [] =
      [1, 2, 3] ∧
    (∀ rid, (computeLocationsCBKHeap true demoDigest demoSigner [[1, 2, 3]] 0 []).2 =
      some rid → 1 ≤ rid) := by
  have h := cbkHeap_no_mutation true demoDigest demoSigner [[1, 2, 3]] 0 []
  exact ⟨(h.1 0 (by decide)).trans rfl, fun rid hr => h.2 rid hr⟩

-- ─── parseUUID lemmas ───

/-- `replace(/^0x/i, '')` leaves a string of pure hex digits unchanged
(`x`/`X` are not hex digits, so no such string starts with a `0x` tag). -/
theorem strip0x_hex (s : List Char) (hhex : ∀ c ∈ s, isHexDigitChar c = true) :
    strip0x s = s := by
  cases s with
  | nil => rfl
  | cons a t =>
    cases t with
    | nil => rfl
    | cons b r =>
      show (if a = '0' ∧ (b = 'x' ∨ b = 'X') then r else a :: b :: r) = a :: b :: r
      rw [if_neg]
      rintro ⟨ha, hb⟩
      have hbhex := hhex b (by simp)
      cases hb with
      | inl h =>
          subst h
          exact absurd hbhex (by decide)
      | inr h =>
          subst h
          exact absurd hbhex (by decide)

/-- C8 — theorem `TunesHashAB.parseUUID_strips_0x`:
`parseUUID` strips an optional case-insensitive `0x` tag before decoding:
for every 16-hex-character string `s`, `parseUUID ("0x" ++ s) = parseUUID s`,
and on the documented device id both spellings return exactly
`[0x00, 0x0A, 0x27, 0x00, 0x24, 0x8F, 0x53, 0x08]`. -/
theorem parseUUID_strips_0x (s : List Char) (_hlen : s.length = 16)
    (hhex : ∀ c ∈ s, isHexDigitChar c = true) :
    parseUUID ('0' :: 'x' :: s) = parseUUID s ∧
    parseUUID ("0x000A2700248F5308".toList) =
      [0x00, 0x0A, 0x27, 0x00, 0x24, 0x8F, 0x53, 0x08] ∧
    parseUUID ("000A2700248F5308".toList) =
      [0x00, 0x0A, 0x27, 0x00, 0x24, 0x8F, 0x53, 0x08] := by
  refine ⟨?_, by decide, by decide⟩
  unfold parseUUID
  have h0x : strip0x ('0' :: 'x' :: s) = s := by
    show (if ('0' : Char) = '0' ∧ (('x' : Char) = 'x' ∨ ('x' : Char) = 'X')
        then s else '0' :: 'x' :: s) = s
    rw [if_pos ⟨rfl, Or.inl rfl⟩]
  rw [h0x, strip0x_hex s hhex]

/-- Witness for C8 at the documented device-identifier string. -/
theorem parseUUID_strips_0x_witness :
    parseUUID ('0' :: 'x' :: "000A2700248F5308".toList) =
      parseUUID ("000A2700248F5308".toList) :=
  (parseUUID_strips_0x ("000A2700248F5308".toList) (by decide) (by decide)).1

/-- C9 — counterexample `TunesHashAB.parseUUID_short_counterexample`:
on the 2-hex-character identifier "FF" (fewer than 16 hex characters after
stripping), `parseUUID` does not fail with any error: it returns exactly
the zero-padded 8-byte result the claim says is rejected. -/
theorem parseUUID_short_counterexample :
    parseUUID ("FF".toList) = [0xFF, 0, 0, 0, 0, 0, 0, 0] := by decide

/-- C9 (amended) — theorem `TunesHashAB.parseUUID_short_zero_pads`:
for every identifier string whose stripped form has fewer than 16
characters, `parseUUID` does not fail: it still returns an 8-byte result,
and every byte position beyond the available character pairs is 0 — the
loose zero-padding behaviour the spec flags as the original's, which the
spec's `InvalidIdentifier` tightening deliberately changes. -/
theorem parseUUID_short_zero_pads (s : List Char)
    (_hshort : (strip0x s).length < 16) :
    (parseUUID s).length = 8 ∧
    (∀ i, i < 8 → (strip0x s).length ≤ 2 * i → (parseUUID s).getD i 0 = 0) := by
  constructor
  · unfold parseUUID
    simp
  · intro i hi hle
    unfold parseUUID
    rw [List.getD_eq_getElem _ _ (by simp [hi])]
    simp only [List.getElem_map, List.getElem_range]
    have hdrop : (strip0x s).drop (i * 2) = [] :=
      List.drop_eq_nil_of_le (by omega)
    rw [hdrop]
    rfl

/-- Witness for C9 (amended) at the identifier "FF". -/
theorem parseUUID_short_zero_pads_witness :
    (parseUUID ("FF".toList)).length = 8 ∧ (parseUUID ("FF".toList)).getD 1 0 = 0 := by
  have h := parseUUID_short_zero_pads ("FF".toList) (by decide)
  exact ⟨h.1, h.2 1 (by decide) (by decide)⟩

end TunesHashAB
